import Mathlib

/- Verification development for the readlif LIF-container reader
   (readlif/reader.py).  Files are modeled as lists of byte values
   (naturals below 256) and Python file handles as explicit positions.
   Fallible code returns Except carrying the source's error messages
   (apostrophes in the original Python message texts are dropped). -/

/-- Decidable equality of Except values, for evaluating the model on
concrete inputs in witnesses and counterexamples. -/
instance {ε α : Type} [DecidableEq ε] [DecidableEq α] : DecidableEq (Except ε α) := fun x y =>
  match x, y with
  | .ok a, .ok b =>
    if h : a = b then isTrue (by rw [h]) else isFalse (by intro hh; cases hh; exact h rfl)
  | .error a, .error b =>
    if h : a = b then isTrue (by rw [h]) else isFalse (by intro hh; cases hh; exact h rfl)
  | .ok _, .error _ => isFalse (by intro h; cases h)
  | .error _, .ok _ => isFalse (by intro h; cases h)

/-- Bytes returned by handle.read(n) at position pos: at most n bytes,
fewer near end-of-file, exactly as a Python binary file read. -/
def hread (data : List Nat) (pos n : Nat) : List Nat :=
  (data.drop pos).take n

/-- Little-endian value of a byte string, as struct.unpack of format I
(4 bytes) or Q (8 bytes) computes it. -/
def leVal (bs : List Nat) : Nat :=
  bs.foldr (fun b acc => b + 256 * acc) 0

/-- Model of numpy.fromfile on a binary file: read count elements of
itemsize bytes each, starting at byte position offset; only complete
elements are produced when the file is too short. -/
def fromfile (file : List Nat) (offset itemsize count : Nat) : List Nat :=
  let bytes := hread file offset (count * itemsize)
  (List.range (bytes.length / itemsize)).map (fun i => leVal (hread bytes (i * itemsize) itemsize))

/-- The per-image dictionary built by LifFile._recursive_image_find
(reader.py lines 500-510).  Attribute values are modeled post-parse:
integer attributes as naturals, float attributes as rationals. -/
structure DataDict where
  dims : List Nat
  path : String
  name : String
  channels : Nat
  ch_offsets : List Nat
  ch_resolutions : List Nat
  scale : List Rat
  stride : List Nat
  tilePosX : List Rat
  tilePosY : List Rat
  deriving DecidableEq

/-- State stored by LifImage.__init__ (reader.py lines 29-46).  The
fields nz and nt are derived projections of dims, see LifImage.nz. -/
structure LifImage where
  dims : List Nat
  offsets : Nat × Nat
  channels : Nat
  stride : List Nat
  ch_resolutions : List Nat
  itemsize : Nat
  deriving DecidableEq

/-- LifImage.nz, set from int(image_info["dims"][1]) in __init__. -/
def LifImage.nz (img : LifImage) : Nat := img.dims.getD 1 0

/-- LifImage.nt, set from int(image_info["dims"][2]) in __init__. -/
def LifImage.nt (img : LifImage) : Nat := img.dims.getD 2 0

/-- The widths accepted by numpy for an unsigned dtype string u-n;
np.dtype raises a TypeError for any other width, modeled as none. -/
def npUdtype (n : Nat) : Option Nat :=
  if n = 1 ∨ n = 2 ∨ n = 4 ∨ n = 8 then some n else none

/-- LifImage construction (reader.py line 43): the element dtype is
np.dtype of u-(int(ch_resolutions[0] / 8)); int() of the true division
truncates, which on naturals is floor division.  A missing channel
(IndexError) or an unsupported width (TypeError) is modeled as none. -/
def mkLifImage (info : DataDict) (offsets : Nat × Nat) : Option LifImage :=
  match info.ch_resolutions.get? 0 with
  | none => none
  | some r =>
    match npUdtype (r / 8) with
    | none => none
    | some b => some ⟨info.dims, offsets, info.channels, info.stride, info.ch_resolutions, b⟩

/-- The seek distance of LifImage._get_item (reader.py line 150):
channels times dims[1] times dims[2] times dims[3]. -/
def seekDistance (img : LifImage) : Nat :=
  img.channels * img.dims.getD 1 0 * img.dims.getD 2 0 * img.dims.getD 3 0

/-- Model of PIL Image.frombytes with mode L and the given size: needs
at least width times height single-byte pixels, takes exactly them and
ignores any excess (the materializer is an external collaborator). -/
def frombytesL (w h : Nat) (data : List Nat) : Except String (List Nat) :=
  if data.length < w * h then .error "not enough image data"
  else .ok (data.take (w * h))

/-- LifImage._get_item (reader.py lines 138-172): the legacy plane
accessor.  It derives the plane byte length from the block length (or
synthesizes it for the zero-length truncation sentinel, in which case
the data is zero bytes not read from the file), seeks to
offsets[0] + image_len * n and materializes a dims[4] x dims[5] plane. -/
def lifGetItem (img : LifImage) (file : List Nat) (n : Int) : Except String (List Nat) :=
  let sd := seekDistance img
  if n ≥ (sd : Int) then .error "Invalid item trying to be retrieved."
  else if img.offsets.2 = 0 then
    let imageLen : Nat := sd * img.dims.getD 4 0 * img.dims.getD 5 0
    let pos : Int := (img.offsets.1 : Int) + (imageLen : Int) * n
    if pos < 0 then .error "OSError: Invalid argument"
    else frombytesL (img.dims.getD 4 0) (img.dims.getD 5 0) (List.replicate imageLen 0)
  else if sd = 0 then .error "ZeroDivisionError"
  else
    let imageLen : Nat := img.offsets.2 / sd
    let pos : Int := (img.offsets.1 : Int) + (imageLen : Int) * n
    if pos < 0 then .error "OSError: Invalid argument"
    else frombytesL (img.dims.getD 4 0) (img.dims.getD 5 0) (hread file pos.toNat imageLen)

/-- LifImage._get_item_np (reader.py lines 48-77): numpy plane accessor.
It reads plane_size elements of the image dtype from the file at
offsets[0] + plane_bytes * n, with no special case for a zero-length
block, and fails when the reshape to dims[4] x dims[5] is impossible. -/
def lifGetItemNp (img : LifImage) (file : List Nat) (n : Int) : Except String (List Nat) :=
  let nPlanes := img.dims.getD 0 0 * img.dims.getD 1 0 * img.dims.getD 2 0 * img.dims.getD 3 0
  if n ≥ (nPlanes : Int) then .error "Invalid item trying to be retrieved."
  else
    let planeSize := img.dims.getD 4 0 * img.dims.getD 5 0
    let planeBytes := planeSize * img.itemsize
    let off : Int := (img.offsets.1 : Int) + (planeBytes : Int) * n
    if off < 0 then .error "OSError: Invalid argument"
    else
      let im := fromfile file off.toNat img.itemsize planeSize
      if im.length = planeSize then .ok im else .error "cannot reshape array"

/-- LifImage.get_frame (reader.py lines 174-220): bounds checks against
nz, nt, channels and dims[3] (upper bounds only), then the linear plane
index m*(C*nz*nt) + t*(C*nz) + c*nz + z, dispatched to _get_item or
_get_item_np. -/
def getFrame (img : LifImage) (file : List Nat) (z t c m : Int) (returnAsNp : Bool) : Except String (List Nat) :=
  if z ≥ (img.nz : Int) then .error "Requested Z frame does not exist."
  else if t ≥ (img.nt : Int) then .error "Requested T frame does not exist."
  else if c ≥ (img.channels : Int) then .error "Requested channel does not exist."
  else if m ≥ (img.dims.getD 3 0 : Int) then .error "Requested tile does not exist."
  else
    let totalItems : Int := (img.channels : Int) * img.nz * img.nt * img.dims.getD 3 0
    let itemRequested : Int :=
      m * ((img.channels : Int) * img.nz * img.nt) + t * ((img.channels : Int) * img.nz) + c * (img.nz : Int) + z
    if itemRequested > totalItems then .error "The requested item is after the end of the image"
    else if returnAsNp then lifGetItemNp img file itemRequested
    else lifGetItem img file itemRequested

/-- LifImage.get_frame_np (reader.py lines 79-109): computes the stride
byte offset m*stride[3] + t*stride[2] + z*stride[1] + c*stride[0] and
hands it to np.fromfile as the offset from position 0 of the freshly
opened file; note that, unlike _get_item_np and get_stack_np, it does
not add self.offsets[0]. -/
def getFrameNp (img : LifImage) (file : List Nat) (z t c m : Nat) : Except String (List Nat) :=
  let offset := m * img.stride.getD 3 0 + t * img.stride.getD 2 0 + z * img.stride.getD 1 0 + c * img.stride.getD 0 0
  let count := img.dims.getD 4 0 * img.dims.getD 5 0
  let im := fromfile file offset img.itemsize count
  if im.length = count then .ok im else .error "cannot reshape array"

/-- Multiplication of rationals through the reducible smart constructor
mkRat, so that the model evaluates on concrete inputs by kernel
reduction; qmul_eq identifies it with standard multiplication. -/
def qmul (a b : Rat) : Rat := mkRat (a.num * b.num) (a.den * b.den)

/-- Subtraction of rationals through mkRat; qsub_eq identifies it with
standard subtraction. -/
def qsub (a b : Rat) : Rat := mkRat (a.num * b.den - b.num * a.den) (a.den * b.den)

/-- Division of rationals through mkRat; qdiv_eq identifies it with
standard division (with the division-by-zero convention of Rat). -/
def qdiv (a b : Rat) : Rat := qmul a (Rat.divInt b.den b.num)

theorem qmul_eq (a b : Rat) : qmul a b = a * b := by
  rw [qmul, Rat.mul_def, Rat.normalize_eq_mkRat]

theorem qsub_eq (a b : Rat) : qsub a b = a - b := (Rat.sub_def' a b).symm

theorem qdiv_eq (a b : Rat) : qdiv a b = a / b := by
  rw [qdiv, qmul_eq, Rat.div_def, Rat.inv_def]

/-- A parsed XML element of the LIF header, as the metadata tree walker
consumes it.  Parsing of the UTF-16 header text into this tree (the
standard-library XML parser) is external to the model; attribute values
are stored post-parse, numeric ones as rationals, plus the Name string
attribute that every traversed Element carries. -/
inductive Elem where
  | mk (tag : String) (name : String) (attrs : List (String × Rat)) (children : List Elem)

/-- Tag of an element. -/
def Elem.tag : Elem → String
  | .mk t _ _ _ => t

/-- Value of the Name attribute of an element. -/
def Elem.name : Elem → String
  | .mk _ n _ _ => n

/-- Numeric attributes of an element. -/
def Elem.attrs : Elem → List (String × Rat)
  | .mk _ _ a _ => a

/-- Child elements of an element. -/
def Elem.children : Elem → List Elem
  | .mk _ _ _ c => c

/-- Attribute lookup, none when the attribute is absent. -/
def Elem.attr? (e : Elem) (k : String) : Option Rat :=
  (e.attrs.find? (fun p => p.1 = k)).map (fun p => p.2)

/-- ElementTree findall over a relative tag path such as
./Children/Element: children with the first tag, then their children
with the next tag, and so on, in document order. -/
def findallPath (e : Elem) (path : List String) : List Elem :=
  match path with
  | [] => [e]
  | t :: rest =>
    ((e.children.filter (fun c => c.tag = t)).map (fun c => findallPath c rest)).flatten

/-- Attribute read parsed with int() or np.uint64(): fails (KeyError or
ValueError, both fatal in the source) unless present and a nonnegative
integer. -/
def natAttr (e : Elem) (k : String) : Except String Nat :=
  match e.attr? k with
  | none => .error ("KeyError: " ++ k)
  | some q => if q.den = 1 ∧ 0 ≤ q.num then .ok q.num.toNat else .error ("ValueError: " ++ k)

/-- Attribute read parsed with float(): fails with KeyError when the
attribute is absent. -/
def ratAttr (e : Elem) (k : String) : Except String Rat :=
  match e.attr? k with
  | none => .error ("KeyError: " ++ k)
  | some q => .ok q

/-- The DimensionDescription lookup of reader.py lines 474-479:
item.find of Data/Image/ImageDescription/Dimensions/DimensionDescription
filtered on the DimID attribute, first match in document order. -/
def findDim (item : Elem) (d : Nat) : Option Elem :=
  ((findallPath item ["Data", "Image", "ImageDescription", "Dimensions", "DimensionDescription"]).filter
    (fun dd => dd.attr? "DimID" = some (d : Rat))).head?

/-- One step of the dimension loop of reader.py lines 472-486: a found
descriptor contributes its NumberOfElements, BytesInc and Length
attributes (a missing attribute on a found descriptor is fatal, only
the element itself may be absent); an absent descriptor defaults to
count 1, stride 0, length 1. -/
def axisInfo (item : Elem) (d : Nat) : Except String (Nat × Nat × Rat) :=
  match findDim item d with
  | some dd => do
    let ne ← natAttr dd "NumberOfElements"
    let bi ← natAttr dd "BytesInc"
    let ln ← ratAttr dd "Length"
    pure (ne, bi, ln)
  | none => pure (1, 0, 1)

/-- The leaf-image branch of LifFile._recursive_image_find (reader.py
lines 455-512): channel enumeration, the stride seed ch_offsets[1]
(an IndexError on a single-channel image), the dimension loop over
DimIDs 3, 4, 10, 2, 1 (Z, T, M, Y, X), the derived scale factors
(a zero physical length is a fatal ZeroDivisionError in the source),
and the tile positions converted to micrometers (the per-channel
attribute enumeration of reader.py lines 462-465). -/
def chAttrList (item : Elem) (k : String) : Except String (List Nat) :=
  (findallPath item ["Data", "Image", "ImageDescription", "Channels", "ChannelDescription"]).mapM
    (fun c => natAttr c k)

/-- The tile-position collection of reader.py lines 494-498 for one of
the PosX / PosY attributes: each Data/Image/Attachment/Tile child
contributes its attribute converted from meters to micrometers. -/
def tilePosList (item : Elem) (k : String) : Except String (List Rat) :=
  (findallPath item ["Data", "Image", "Attachment", "Tile"]).mapM
    (fun tl => do
      let x ← ratAttr tl k
      pure (qmul x 1000000))

def buildImage (item : Elem) (path : String) : Except String DataDict := do
  let channelList := findallPath item ["Data", "Image", "ImageDescription", "Channels", "ChannelDescription"]
  let n := channelList.length
  let chOffsets ← chAttrList item "BytesInc"
  let chResolutions ← chAttrList item "Resolution"
  let stride0 ←
    match chOffsets.get? 1 with
    | some v => pure v
    | none => Except.error "IndexError: list index out of range"
  let step := fun (acc : List Nat × List Nat × List Rat) (d : Nat) => do
    let (ne, bi, ln) ← axisInfo item d
    pure (acc.1 ++ [ne], acc.2.1 ++ [bi], acc.2.2 ++ [ln])
  let r ← [3, 4, 10, 2, 1].foldlM step ([n], [stride0], [qsub (n : Rat) 1])
  let dims := r.1
  let strides := r.2.1
  let lengths := r.2.2
  if lengths.getD 1 0 = 0 ∨ lengths.getD 2 0 = 0 ∨ lengths.getD 4 0 = 0 ∨ lengths.getD 5 0 = 0 then
    Except.error "ZeroDivisionError"
  else
    let scales : List Rat :=
      [1,
       qdiv (dims.getD 1 0 : Rat) (qmul (lengths.getD 1 0) 1000000),
       qdiv (dims.getD 2 0 : Rat) (lengths.getD 2 0),
       1,
       qdiv (qsub (dims.getD 4 0 : Rat) 1) (qmul (lengths.getD 4 0) 1000000),
       qdiv (qsub (dims.getD 5 0 : Rat) 1) (qmul (lengths.getD 5 0) 1000000)]
    let posX ← tilePosList item "PosX"
    let posY ← tilePosList item "PosY"
    pure ⟨dims, path ++ "/", item.name, n, chOffsets, chResolutions, scales, strides, posX, posY⟩

/-- Child selection of _recursive_image_find (reader.py lines 438-440):
Children/Element, falling back to Element at the document root. -/
def childElems (e : Elem) : List Elem :=
  let c1 := findallPath e ["Children", "Element"]
  if c1.length < 1 then findallPath e ["Element"] else c1

/-- The recursive walk of _recursive_image_find over a child list
(reader.py lines 441-514).  Folders (elements with sub-children)
recurse with the extended path; leaf images (elements with a Dimensions
descriptor) are converted with buildImage, in traversal order.  The
fuel bounds the recursion depth as Python's recursion limit does. -/
def rifGo : Nat → List Elem → String → Except String (List DataDict)
  | 0, _, _ => .error "RecursionError"
  | _ + 1, [], _ => .ok []
  | fuel + 1, item :: rest, path => do
    let folderName := item.name
    let appendedPath := if path = "" then folderName else path ++ "/" ++ folderName
    let hasSubChildren := (findallPath item ["Children", "Element"]).length > 0
    let isImage := (findallPath item ["Data", "Image", "ImageDescription", "Dimensions"]).length > 0
    let here ←
      if hasSubChildren then rifGo fuel (childElems item) appendedPath
      else if isImage then (do
        let d ← buildImage item path
        pure [d])
      else pure []
    let more ← rifGo fuel rest path
    pure (here ++ more)

/-- LifFile._recursive_image_find started at the document root with the
empty path. -/
def recursiveImageFind (fuel : Nat) (root : Elem) : Except String (List DataDict) :=
  rifGo fuel (childElems root) ""

/-- The four LIF magic bytes checked by _check_magic (reader.py line 369). -/
def magicBytes : List Nat := [0x70, 0x00, 0x00, 0x00]

/-- The fatal message of _check_magic at tell position p. -/
def magicMsg (p : Nat) : String :=
  "This is probably not a LIF file. Expected LIF magic byte at " ++ toString p

/-- The fatal message of _check_mem at tell position p. -/
def memMsg (p : Nat) : String :=
  "Expected LIF memory byte at " ++ toString p

/-- Outcome of one pass of the while body of LifFile.__init__
(reader.py lines 531-564): continue at a new position having possibly
recorded one (offset, length) pair, stop because the truncation
heuristic fired (recording the truncation offset, setting the flag and
emitting the non-fatal warning), or fail fatally. -/
inductive StepOut where
  | next (pos : Nat) (entry : Option (Nat × Nat))
  | truncStop (truncationBegin : Nat)
  | fatal (msg : String)
  deriving DecidableEq

/-- The except-ValueError handler of the scan loop together with
_check_truncated (reader.py lines 357-364 and 554-564): from the tell
position p after the failed assertion read, back up 4 bytes and read
100 bytes; if they are exactly 100 zero bytes the file is declared
truncated at position p - 4 (flag set, warning emitted, scanning
stops), otherwise the original ValueError propagates fatally. -/
def onScanFailure (data : List Nat) (p : Nat) (msg : String) : StepOut :=
  if hread data (p - 4) 100 = List.replicate 100 0 then .truncStop (p - 4)
  else .fatal msg

/-- The tail of a scan-body pass after the block length is known
(reader.py lines 547-552): read the description length (in 2-byte
units), record (tell + description_len, block_len) when the block
length is positive, and advance past description and payload. -/
def afterLen (data : List Nat) (pos blockLen : Nat) : StepOut :=
  let db := hread data pos 4
  if db.length = 4 then
    let descLen := leVal db * 2
    let p := pos + 4
    .next (p + descLen + blockLen) (if blockLen > 0 then some (p + descLen, blockLen) else none)
  else .fatal "struct.error: unpack requires 4 bytes"

/-- One pass of the block-scan while body (reader.py lines 531-564):
magic assertion, 4 reserved bytes skipped, memory-marker assertion,
4-byte block length, the large-block re-read (back up 5 bytes, 8-byte
length, marker re-asserted) when the following byte is not the marker,
then afterLen.  Failed magic or marker assertions go through
onScanFailure; a short struct read is a fatal struct.error, which the
source does not catch. -/
def scanStep (data : List Nat) (pos : Nat) : StepOut :=
  let bs := hread data pos 4
  let p1 := pos + bs.length
  if bs = magicBytes then
    let p2 := p1 + 4
    let mb := hread data p2 1
    let p3 := p2 + mb.length
    if mb = [0x2a] then
      let lb := hread data p3 4
      if lb.length = 4 then
        let blockLen := leVal lb
        let p4 := p3 + 4
        let mb2 := hread data p4 1
        let p5 := p4 + mb2.length
        if mb2 = [0x2a] then afterLen data p5 blockLen
        else
          let p6 := p5 - 5
          let ll := hread data p6 8
          if ll.length = 8 then
            let blockLen2 := leVal ll
            let p7 := p6 + 8
            let mb3 := hread data p7 1
            let p8 := p7 + mb3.length
            if mb3 = [0x2a] then afterLen data p8 blockLen2
            else onScanFailure data p8 (memMsg p8)
          else .fatal "struct.error: unpack requires 8 bytes"
      else .fatal "struct.error: unpack requires 4 bytes"
    else onScanFailure data p3 (memMsg p3)
  else onScanFailure data p1 (magicMsg p1)

/-- The block-scan while loop (reader.py lines 530-564), with explicit
fuel: it runs while the position is before end-of-file, accumulating
(offset, length) pairs, and returns them with the truncation flag and
the recorded truncation offset (0 when not truncated). -/
def scanLoop (data : List Nat) : Nat → Nat → List (Nat × Nat) → Except String (List (Nat × Nat) × Bool × Nat)
  | 0, _, _ => .error "fuel exhausted"
  | fuel + 1, pos, acc =>
    if pos < data.length then
      match scanStep data pos with
      | .next pos2 e => scanLoop data fuel pos2 (acc ++ e.toList)
      | .truncStop tb => .ok (acc, true, tb)
      | .fatal msg => .error msg
    else .ok (acc, false, 0)

/-- The post-scan reconciliation of LifFile.__init__ (reader.py lines
570-585): when truncated, append (truncationBegin, 0) entries until the
offset count reaches the image count (a negative difference appends
nothing); then fail with the consistency error exactly when the counts
differ and the file is not truncated. -/
def reconcileOffsets (imageCount : Nat) (offs : List (Nat × Nat)) (truncated : Bool) (tb : Nat) :
    Except String (List (Nat × Nat)) :=
  let offs2 := if truncated then offs ++ List.replicate (imageCount - offs.length) (tb, 0) else offs
  if imageCount ≠ offs2.length ∧ truncated = false then
    .error "Number of images is not equal to number of offsets, and this file does not appear to be truncated. Something has gone wrong."
  else .ok offs2

/-- The immutable container state built by LifFile.__init__. -/
structure LifFileState where
  imageList : List DataDict
  offsets : List (Nat × Nat)
  truncated : Bool
  numImages : Nat
  deriving DecidableEq

/-- LifFile.__init__ (reader.py lines 516-585) over a byte file and the
externally parsed XML root of its header text: header magic and marker
checks, header length, the block scan starting after the header text,
the recursive image find, and reconciliation.  The UTF-16 decode and
XML parse of the header bytes are external collaborators; the walker
fuel models the Python recursion limit. -/
def lifOpen (data : List Nat) (xmlRoot : Elem) (rifFuel : Nat) : Except String LifFileState :=
  let bs := hread data 0 4
  if bs = magicBytes then
    let mb := hread data 8 1
    if mb = [0x2a] then
      let hb := hread data 9 4
      if hb.length = 4 then
        let headerLen := leVal hb
        let startPos := 13 + (hread data 13 (headerLen * 2)).length
        match scanLoop data (data.length + 1) startPos [] with
        | .error m => .error m
        | .ok (offs, truncated, tb) =>
          match recursiveImageFind rifFuel xmlRoot with
          | .error m => .error m
          | .ok imgs =>
            match reconcileOffsets imgs.length offs truncated tb with
            | .error m => .error m
            | .ok offs2 => .ok ⟨imgs, offs2, truncated, imgs.length⟩
      else .error "struct.error: unpack requires 4 bytes"
    else .error (memMsg (8 + mb.length))
  else .error (magicMsg bs.length)

set_option maxRecDepth 40000

/-- A ChannelDescription element with BytesInc and Resolution. -/
def chElem (bi res : Nat) : Elem :=
  .mk "ChannelDescription" "" [("BytesInc", bi), ("Resolution", res)] []

/-- A DimensionDescription element with DimID, NumberOfElements,
BytesInc and Length. -/
def dimElem (d ne bi : Nat) (ln : Rat) : Elem :=
  .mk "DimensionDescription" "" [("DimID", d), ("NumberOfElements", ne), ("BytesInc", bi), ("Length", ln)] []

/-- A leaf image Element with the given channel descriptions and
dimension descriptions under Data/Image/ImageDescription. -/
def leafElem (chs : List Elem) (dds : List Elem) : Elem :=
  .mk "Element" "Img" []
    [.mk "Data" "" []
      [.mk "Image" "" []
        [.mk "ImageDescription" "" []
          [.mk "Dimensions" "" [] dds, .mk "Channels" "" [] chs]]]]

/-- A well-formed two-channel leaf image: Z count 10, Z length 9e-6 m,
Y count 2 of length 3e-6 m, X count 2 of length 2e-6 m. -/
def wellElem : Elem :=
  leafElem [chElem 0 4, chElem 4 8]
    [dimElem 3 10 16 (mkRat 9 1000000), dimElem 2 2 2 (mkRat 3 1000000), dimElem 1 2 1 (mkRat 2 1000000)]

/-- The descriptor the source builds for wellElem. -/
def wellDict : DataDict :=
  ⟨[2, 10, 1, 1, 2, 2], "/", "Img", 2, [0, 4], [4, 8],
   [1, mkRat 10 9, 1, 1, mkRat 1 3, mkRat 1 2], [4, 16, 0, 0, 2, 1], [], []⟩

/-- An XML root whose single child is the wellElem leaf image. -/
def wellXml : Elem := .mk "LMSDataContainerHeader" "" [] [wellElem]

/-- A well-formed container file for wellXml: header, then one block of
80 payload bytes whose pixel data starts at offset 33. -/
def wellData : List Nat :=
  [0x70, 0, 0, 0, 0, 0, 0, 0, 0x2a, 1, 0, 0, 0] ++ [0x61, 0] ++
  [0x70, 0, 0, 0, 0, 0, 0, 0, 0x2a, 80, 0, 0, 0, 0x2a, 0, 0, 0, 0] ++ List.replicate 80 1

/-- The image used for claim C1: block file offset 100 and length 1,
all strides 0, a 1 x 1 plane of byte depth 1. -/
def c1img : LifImage := ⟨[1, 1, 1, 1, 1, 1], (100, 1), 1, [0, 0, 0, 0], [8, 8], 1⟩

/-- The file used for claim C1: byte 7 at position 0 (where get_frame_np
actually reads) and byte 9 at position 100 (the block file offset, where
the claim says the read starts). -/
def c1file : List Nat := 7 :: List.replicate 99 0 ++ [9]

/-- The descriptor used for the claim C6 counterexample: first channel
bit resolution 12, which is not a multiple of 8. -/
def c6info : DataDict :=
  ⟨[2, 1, 1, 1, 1, 1], "/", "x", 2, [0, 1], [12, 8], [], [0, 0, 0, 0], [], []⟩

/-- A two-channel descriptor with first resolution 16, used as witness
input. -/
def c6winfo : DataDict :=
  ⟨[2, 1, 1, 1, 1, 1], "/", "x", 2, [0, 2], [16, 8], [], [0, 0, 0, 0], [], []⟩

/-- The image used for the claim C9 witness: one plane of four bytes
in a block at file offset 5 of length 4. -/
def c9img : LifImage := ⟨[1, 1, 1, 1, 1, 1], (5, 4), 1, [0, 0, 0, 0], [8], 1⟩

/-- A six-byte file for the claim C9 witness. -/
def c9file : List Nat := [9, 8, 7, 6, 5, 4]

/-- The image used for the claim C2 witness: one channel, two Z planes
of 2 x 2 bytes in a block of length 8 at file offset 0. -/
def w2img : LifImage := ⟨[1, 2, 1, 1, 2, 2], (0, 8), 1, [0, 0, 0, 0], [8], 1⟩

/-- An eight-byte file for the claim C2 witness. -/
def w2file : List Nat := [1, 2, 3, 4, 5, 6, 7, 8]

/-- The LifImage built from c6winfo, used for the claim C10 witness. -/
def img16 : LifImage := ⟨[2, 1, 1, 1, 1, 1], (1, 2), 2, [0, 0, 0, 0], [16, 8], 2⟩

/-- C1: the claim says the single-plane stride read returns data from
absolute file position block.fileOffset + byteOffset.  The code
(get_frame_np, reader.py lines 100-107) passes the stride byte offset
to np.fromfile on a freshly opened file without adding self.offsets[0],
so at coordinate (0,0,0,0) with byteOffset 0 it returns the byte at
position 0 (here 7), while the position block.fileOffset + byteOffset =
100 holds the byte 9.  The sibling accessors _get_item_np (line 68) and
get_stack_np (line 125) do add self.offsets[0], so the omission is a
slip in the code, not the intent. -/
theorem get_frame_np_reads_without_block_offset :
    getFrameNp c1img c1file 0 0 0 0 = .ok [7] ∧
    fromfile c1file
      (c1img.offsets.1 +
        (0 * c1img.stride.getD 3 0 + 0 * c1img.stride.getD 2 0 + 0 * c1img.stride.getD 1 0 +
          0 * c1img.stride.getD 0 0))
      c1img.itemsize (c1img.dims.getD 4 0 * c1img.dims.getD 5 0) = [9] ∧
    (7 : Nat) ≠ 9 := by decide

/-- The single-channel leaf image used for claim C7. -/
def c7elem : Elem := leafElem [chElem 0 8] [dimElem 1 2 1 (mkRat 2 1000000)]

/-- C7: the claim says a leaf image with exactly one channel is
special-cased and the per-channel byte-increment list is never indexed
out of range.  The code (reader.py line 468, with its FIXME comment
admitting the assumption of at least two channels) evaluates
ch_offsets[1] on the one-element list, an IndexError: on a leaf with
exactly one ChannelDescription, building the descriptor fails with the
out-of-range indexing error instead of being special-cased. -/
theorem buildImage_single_channel_index_error :
    (findallPath c7elem ["Data", "Image", "ImageDescription", "Channels", "ChannelDescription"]).length = 1 ∧
    buildImage c7elem "" = .error "IndexError: list index out of range" := by decide

/-- The image used for the claim C3 counterexample: a 1 x 1 plane over
a block with the zero-length truncation sentinel at file offset 10. -/
def c3img : LifImage := ⟨[1, 1, 1, 1, 1, 1], (10, 0), 1, [0, 0, 0, 0], [8], 1⟩

/-- A file with the nonzero byte 7 at position 10. -/
def c3file : List Nat := List.replicate 10 0 ++ [7]

/-- C3 counterexample: the claim says every plane read against a block
of byteLength 0 returns a zero-filled plane without reading the file.
The numpy path (get_frame with return_as_np, via _get_item_np, reader.py
lines 48-77) has no zero-length special case: on the sentinel block it
reads the plane from the file, returning the nonzero byte 7 from one
file and 0 from another file, so the result is not zero-filled and does
depend on the file contents. -/
theorem get_frame_np_path_ignores_truncation_sentinel :
    c3img.offsets.2 = 0 ∧
    getFrame c3img c3file 0 0 0 0 true = .ok [7] ∧
    getFrame c3img (List.replicate 11 0) 0 0 0 0 true = .ok [0] ∧
    ([7] : List Nat) ≠ List.replicate 1 0 := by decide

/-- The file used for the claim C4 counterexample: a valid header with
a 4-code-unit header text, one valid block of length 1 whose payload
starts at offset 39, and then 100 zero bytes, so the scan records one
block and then stops via the truncation heuristic. -/
def cex4data : List Nat :=
  [0x70, 0, 0, 0, 0, 0, 0, 0, 0x2a, 4, 0, 0, 0] ++ [0x3C, 0, 0x61, 0, 0x2F, 0, 0x3E, 0] ++
  [0x70, 0, 0, 0, 0, 0, 0, 0, 0x2a, 1, 0, 0, 0, 0x2a, 0, 0, 0, 0, 0xAA] ++ List.replicate 100 0

/-- An XML root with no Element children: the walker finds no images. -/
def cex4xml : Elem := .mk "a" "" [] []

/-- C4 counterexample: the claim says that after every successful open
the block count equals the descriptor count.  On a truncated file whose
scan found more blocks than the header declares images, the
reconciliation (reader.py lines 572-585) appends nothing (the range of
a negative count is empty) and the consistency check is skipped because
the truncation flag is set, so the open succeeds with 1 block and 0
descriptors. -/
theorem lifOpen_truncated_excess_blocks :
    lifOpen cex4data cex4xml 5 = .ok ⟨[], [(39, 1)], true, 0⟩ ∧
    ((1 : Nat) ≠ 0) := by decide

/-- Length of a modeled file read: at most n, limited by the bytes
available after pos. -/
theorem hread_length (data : List Nat) (pos n : Nat) :
    (hread data pos n).length = min n (data.length - pos) := by
  simp [hread]

/-- C6 counterexample: the claim says construction fails with a
FormatError whenever a channel bit resolution is not a multiple of 8.
For resolution 12, int(12 / 8) is 1, so LifImage construction succeeds
and derives the byte depth 1 (dtype u1) with no error at all. -/
theorem mkLifImage_resolution12_succeeds :
    c6info.ch_resolutions.getD 0 0 % 8 ≠ 0 ∧
    (mkLifImage c6info (0, 0)).map (fun i => i.itemsize) = some 1 := by decide

/-- C6 amended: construction performs no multiple-of-8 check at all;
the byte depth is the floor of the first channel resolution divided by
8, and construction fails (with a numpy dtype TypeError, not a
FormatError) exactly when that floor is not one of the supported
unsigned widths 1, 2, 4, 8 - for instance for any resolution below 8. -/
theorem mkLifImage_floor_byte_depth (info : DataDict) (offs : Nat × Nat) (r : Nat)
    (rest : List Nat) (h : info.ch_resolutions = r :: rest) :
    ((r / 8 = 1 ∨ r / 8 = 2 ∨ r / 8 = 4 ∨ r / 8 = 8) →
      mkLifImage info offs =
        some ⟨info.dims, offs, info.channels, info.stride, info.ch_resolutions, r / 8⟩) ∧
    (¬(r / 8 = 1 ∨ r / 8 = 2 ∨ r / 8 = 4 ∨ r / 8 = 8) → mkLifImage info offs = none) := by
  constructor <;> intro hw <;> simp [mkLifImage, h, npUdtype, hw]

/-- Witness for the amended C6 theorem at resolution 16: construction
succeeds with byte depth 2. -/
theorem mkLifImage_floor_byte_depth_witness :
    mkLifImage c6winfo (1, 2) =
      some ⟨c6winfo.dims, (1, 2), c6winfo.channels, c6winfo.stride, c6winfo.ch_resolutions, 16 / 8⟩ :=
  (mkLifImage_floor_byte_depth c6winfo (1, 2) 16 [8] rfl).1 (by decide)

/-- Evaluation of the legacy PIL plane accessor on a block with the
zero-length truncation sentinel: a zero-filled dims[4] x dims[5] plane,
with no dependence on the file. -/
theorem lifGetItem_zero_eval (img : LifImage) (file : List Nat) (n : Int)
    (h0 : img.offsets.2 = 0) (hn0 : 0 ≤ n) (hn : n < (seekDistance img : Int)) :
    lifGetItem img file n = .ok (List.replicate (img.dims.getD 4 0 * img.dims.getD 5 0) 0) := by
  have hsd : 1 ≤ seekDistance img := by
    by_contra hlt
    have : seekDistance img = 0 := by omega
    rw [this] at hn
    omega
  have hlen : img.dims.getD 4 0 * img.dims.getD 5 0 ≤
      seekDistance img * img.dims.getD 4 0 * img.dims.getD 5 0 := by
    calc img.dims.getD 4 0 * img.dims.getD 5 0
        = 1 * (img.dims.getD 4 0 * img.dims.getD 5 0) := by ring
      _ ≤ seekDistance img * (img.dims.getD 4 0 * img.dims.getD 5 0) :=
          Nat.mul_le_mul_right _ hsd
      _ = seekDistance img * img.dims.getD 4 0 * img.dims.getD 5 0 := by ring
  have hpos : ¬((img.offsets.1 : Int) +
      ((seekDistance img * img.dims.getD 4 0 * img.dims.getD 5 0 : Nat) : Int) * n < 0) := by
    push_neg
    positivity
  rw [lifGetItem]
  rw [if_neg (by omega), if_pos h0, if_neg hpos, frombytesL]
  rw [if_neg (by simpa using hlen)]
  rw [List.take_replicate, Nat.min_eq_left hlen]

/-- C3 amended: only the legacy PIL path (_get_item, reached by
get_frame with return_as_np false) implements the truncation sentinel:
for a block of byteLength 0 and any in-range item it returns a
zero-filled dims[4] x dims[5] plane, identically for any two files, so
no pixel data is read from the file and no error is raised.  The numpy
path reads from the file (see the C3 counterexample). -/
theorem lifGetItem_zero_block_zero_fill (img : LifImage) (file file2 : List Nat) (n : Int)
    (h0 : img.offsets.2 = 0) (hn0 : 0 ≤ n) (hn : n < (seekDistance img : Int)) :
    lifGetItem img file n = .ok (List.replicate (img.dims.getD 4 0 * img.dims.getD 5 0) 0) ∧
    lifGetItem img file n = lifGetItem img file2 n :=
  ⟨lifGetItem_zero_eval img file n h0 hn0 hn,
   (lifGetItem_zero_eval img file n h0 hn0 hn).trans
     (lifGetItem_zero_eval img file2 n h0 hn0 hn).symm⟩

/-- Witness for the amended C3 theorem: on the zero-length block image,
the PIL path yields the zero plane on two different files. -/
theorem lifGetItem_zero_block_zero_fill_witness :
    lifGetItem c3img (List.replicate 11 0) 0 = .ok (List.replicate 1 0) ∧
    lifGetItem c3img (List.replicate 11 0) 0 = lifGetItem c3img c3file 0 := by
  have h := lifGetItem_zero_block_zero_fill c3img (List.replicate 11 0) c3file 0
    (by decide) (by decide) (by decide)
  exact ⟨h.1, h.2⟩

/-- Counts after a successful reconciliation: the descriptor count
never exceeds the reconciled block count, and equals it when the
truncation flag is not set. -/
theorem reconcile_ok_counts (k : Nat) (offs : List (Nat × Nat)) (tr : Bool) (tb : Nat)
    (offs2 : List (Nat × Nat)) (h : reconcileOffsets k offs tr tb = .ok offs2) :
    k ≤ offs2.length ∧ (tr = false → k = offs2.length) := by
  cases tr with
  | false =>
    simp only [reconcileOffsets] at h
    simp at h
    by_cases hk : k = offs.length
    · rw [if_pos hk] at h
      cases h
      exact ⟨Nat.le_of_eq hk, fun _ => hk⟩
    · rw [if_neg hk] at h
      cases h
  | true =>
    simp only [reconcileOffsets] at h
    simp at h
    subst h
    refine ⟨?_, ?_⟩
    · simp only [List.length_append, List.length_replicate]
      omega
    · intro htr
      cases htr

/-- Block and descriptor counts after every successful open: the
descriptor count never exceeds the block count, and the two are equal
whenever the truncation flag is not set. -/
theorem open_counts (data : List Nat) (xml : Elem) (fuel : Nat) (st : LifFileState)
    (h : lifOpen data xml fuel = .ok st) :
    st.imageList.length ≤ st.offsets.length ∧
    (st.truncated = false → st.imageList.length = st.offsets.length) := by
  simp only [lifOpen] at h
  by_cases h1 : hread data 0 4 = magicBytes
  · rw [if_pos h1] at h
    by_cases h2 : hread data 8 1 = [0x2a]
    · rw [if_pos h2] at h
      by_cases h3 : (hread data 9 4).length = 4
      · rw [if_pos h3] at h
        cases hscan : scanLoop data (data.length + 1)
            (13 + (hread data 13 (leVal (hread data 9 4) * 2)).length) [] with
        | error m => rw [hscan] at h; cases h
        | ok trip =>
          obtain ⟨offs, truncated, tb⟩ := trip
          rw [hscan] at h
          dsimp only at h
          cases hrif : recursiveImageFind fuel xml with
          | error m => rw [hrif] at h; cases h
          | ok imgs =>
            rw [hrif] at h
            dsimp only at h
            cases hrec : reconcileOffsets imgs.length offs truncated tb with
            | error m => rw [hrec] at h; cases h
            | ok offs2 =>
              rw [hrec] at h
              dsimp only at h
              cases h
              have hc := reconcile_ok_counts imgs.length offs truncated tb offs2 hrec
              exact ⟨hc.1, fun htr => hc.2 htr⟩
      · rw [if_neg h3] at h; cases h
    · rw [if_neg h2] at h; cases h
  · rw [if_neg h1] at h; cases h

/-- C4 amended: reconciliation behaves as the claim says in both stated
directions - with the flag unset the open fails with the consistency
error exactly when the counts differ, and with the flag set
Block(truncationOffset, 0) entries are synthesized up to the descriptor
count - but when the truncated scan found more blocks than there are
descriptors nothing is removed or checked, the reconciled count is the
maximum of the two, and the open still succeeds with unequal counts
(see the C4 counterexample).  After every successful open the
descriptor count is at most the block count, with equality whenever
the truncation flag is unset. -/
theorem reconcile_and_open_counts :
    (∀ (k : Nat) (offs : List (Nat × Nat)) (tb : Nat),
      reconcileOffsets k offs false tb =
        if k = offs.length then .ok offs
        else .error "Number of images is not equal to number of offsets, and this file does not appear to be truncated. Something has gone wrong.") ∧
    (∀ (k : Nat) (offs : List (Nat × Nat)) (tb : Nat),
      reconcileOffsets k offs true tb = .ok (offs ++ List.replicate (k - offs.length) (tb, 0)) ∧
      (offs ++ List.replicate (k - offs.length) (tb, 0)).length = max k offs.length) ∧
    (∀ (data : List Nat) (xml : Elem) (fuel : Nat) (st : LifFileState),
      lifOpen data xml fuel = .ok st →
      st.imageList.length ≤ st.offsets.length ∧
      (st.truncated = false → st.imageList.length = st.offsets.length)) := by
  refine ⟨?_, ?_, ?_⟩
  · intro k offs tb
    simp only [reconcileOffsets]
    simp
  · intro k offs tb
    refine ⟨?_, ?_⟩
    · simp only [reconcileOffsets]
      simp
    · simp only [List.length_append, List.length_replicate]
      omega
  · intro data xml fuel st h
    exact open_counts data xml fuel st h

/-- Witness for the amended C4 theorem: a concrete well-formed
untruncated open succeeds with one block and one descriptor. -/
theorem reconcile_and_open_counts_witness :
    lifOpen wellData wellXml 5 = .ok ⟨[wellDict], [(33, 80)], false, 1⟩ ∧
    ([wellDict] : List DataDict).length = ([(33, 80)] : List (Nat × Nat)).length := by
  have h0 : lifOpen wellData wellXml 5 = .ok ⟨[wellDict], [(33, 80)], false, 1⟩ := by decide
  have h := (reconcile_and_open_counts.2.2 wellData wellXml 5 ⟨[wellDict], [(33, 80)], false, 1⟩ h0).2 rfl
  exact ⟨h0, h⟩

/-- C5: whenever a magic or marker assertion of the block scan fails
(either of the three assertion sites: the magic check, the marker check
after the reserved bytes, and the re-asserted marker of the large-block
path), the handler backs up 4 bytes from the position of the failed
read and inspects the next 100 bytes: if they are exactly 100 zero
bytes the scan records that offset as the truncation point, sets the
truncation flag (the constructor that also stands for the non-fatal
warning of reader.py line 557) and stops scanning, returning the blocks
found so far; otherwise the original error propagates fatally out of
the loop. -/
theorem scan_truncation_recovery (data : List Nat) (pos fuel : Nat) (acc : List (Nat × Nat))
    (hpos : pos < data.length) :
    (∀ p msg, hread data (p - 4) 100 = List.replicate 100 0 →
      onScanFailure data p msg = .truncStop (p - 4)) ∧
    (∀ p msg, hread data (p - 4) 100 ≠ List.replicate 100 0 →
      onScanFailure data p msg = .fatal msg) ∧
    (hread data pos 4 ≠ magicBytes →
      scanStep data pos =
        onScanFailure data (pos + (hread data pos 4).length)
          (magicMsg (pos + (hread data pos 4).length))) ∧
    (hread data pos 4 = magicBytes → hread data (pos + 8) 1 ≠ [0x2a] →
      scanStep data pos =
        onScanFailure data (pos + 8 + (hread data (pos + 8) 1).length)
          (memMsg (pos + 8 + (hread data (pos + 8) 1).length))) ∧
    (hread data pos 4 = magicBytes → hread data (pos + 8) 1 = [0x2a] →
      (hread data (pos + 9) 4).length = 4 → hread data (pos + 13) 1 ≠ [0x2a] →
      (hread data (pos + 13 + (hread data (pos + 13) 1).length - 5) 8).length = 8 →
      hread data (pos + 13 + (hread data (pos + 13) 1).length - 5 + 8) 1 ≠ [0x2a] →
      scanStep data pos =
        onScanFailure data
          (pos + 13 + (hread data (pos + 13) 1).length - 5 + 8 +
            (hread data (pos + 13 + (hread data (pos + 13) 1).length - 5 + 8) 1).length)
          (memMsg (pos + 13 + (hread data (pos + 13) 1).length - 5 + 8 +
            (hread data (pos + 13 + (hread data (pos + 13) 1).length - 5 + 8) 1).length))) ∧
    (∀ tb, scanStep data pos = .truncStop tb →
      scanLoop data (fuel + 1) pos acc = .ok (acc, true, tb)) ∧
    (∀ msg, scanStep data pos = .fatal msg →
      scanLoop data (fuel + 1) pos acc = .error msg) := by
  refine ⟨?_, ?_, ?_, ?_, ?_, ?_, ?_⟩
  · intro p msg hz
    simp only [onScanFailure, if_pos hz]
  · intro p msg hz
    simp only [onScanFailure, if_neg hz]
  · intro hb
    simp only [scanStep, if_neg hb]
  · intro hb hm
    have hmb4 : magicBytes.length = 4 := rfl
    have e1 : pos + 4 + 4 = pos + 8 := by omega
    simp only [scanStep, hb, hmb4, if_pos rfl, e1, if_true]
    rw [if_neg hm]
  · intro hb hm hlb hm2 hll hm3
    have hmb4 : magicBytes.length = 4 := rfl
    have hm1 : ([0x2a] : List Nat).length = 1 := rfl
    have e1 : pos + 4 + 4 = pos + 8 := by omega
    simp only [scanStep, hb, hmb4, if_pos rfl, e1, hm, hm1]
    have e2 : pos + 8 + 1 = pos + 9 := by omega
    have e3 : pos + 9 + 4 = pos + 13 := by omega
    simp only [if_true, e2, e3, hlb]
    rw [if_neg hm2, if_pos hll, if_neg hm3]
  · intro tb hstep
    simp only [scanLoop, if_pos hpos, hstep]
  · intro msg hstep
    simp only [scanLoop, if_pos hpos, hstep]

/-- Witness for C5: a file of 104 zero bytes fails the magic assertion
at once; the 100 bytes from the backed-up position are all zero, so the
scan stops as truncated at offset 0 with no blocks. -/
theorem scan_truncation_recovery_witness :
    scanLoop (List.replicate 104 0) 1 0 [] = .ok ([], true, 0) := by
  have H := scan_truncation_recovery (List.replicate 104 0) 0 0 [] (by decide)
  have hC := H.2.2.1 (by decide)
  have hA := H.1 (0 + (hread (List.replicate 104 0) 0 4).length)
    (magicMsg (0 + (hread (List.replicate 104 0) 0 4).length)) (by decide)
  have hF := H.2.2.2.2.2.1 (0 + (hread (List.replicate 104 0) 0 4).length - 4) (hC.trans hA)
  exact hF

/-- Upper bound on the linear plane index of get_frame: with every
coordinate below its axis size (no lower bound assumed), the index is
at most total_items - 1, so the second check of get_frame never fires. -/
theorem item_le_total (C Z T M : Nat) (z t c m : Int)
    (hz : z < (Z : Int)) (ht : t < (T : Int)) (hc : c < (C : Int)) (hm : m < (M : Int)) :
    m * ((C : Int) * Z * T) + t * ((C : Int) * Z) + c * (Z : Int) + z ≤ (C : Int) * Z * T * M - 1 := by
  have hCZT : (0 : Int) ≤ (C : Int) * Z * T := by positivity
  have hCZ : (0 : Int) ≤ (C : Int) * Z := by positivity
  have hZ : (0 : Int) ≤ (Z : Int) := Int.natCast_nonneg Z
  have h1 : m * ((C : Int) * Z * T) ≤ ((M : Int) - 1) * ((C : Int) * Z * T) :=
    mul_le_mul_of_nonneg_right (by omega) hCZT
  have h2 : t * ((C : Int) * Z) ≤ ((T : Int) - 1) * ((C : Int) * Z) :=
    mul_le_mul_of_nonneg_right (by omega) hCZ
  have h3 : c * (Z : Int) ≤ ((C : Int) - 1) * (Z : Int) :=
    mul_le_mul_of_nonneg_right (by omega) hZ
  have h4 : z ≤ (Z : Int) - 1 := by omega
  have key : ((M : Int) - 1) * ((C : Int) * Z * T) + ((T : Int) - 1) * ((C : Int) * Z) +
      ((C : Int) - 1) * (Z : Int) + ((Z : Int) - 1) = (C : Int) * Z * T * M - 1 := by ring
  linarith

/-- With every coordinate below its axis size, get_frame passes all its
checks and dispatches the linear plane index to the selected accessor. -/
theorem getFrame_inbounds_eq (img : LifImage) (file : List Nat) (z t c m : Int) (b : Bool)
    (hz : z < (img.nz : Int)) (ht : t < (img.nt : Int)) (hc : c < (img.channels : Int))
    (hm : m < (img.dims.getD 3 0 : Int)) :
    getFrame img file z t c m b =
      if b then
        lifGetItemNp img file
          (m * ((img.channels : Int) * img.nz * img.nt) + t * ((img.channels : Int) * img.nz) +
            c * (img.nz : Int) + z)
      else
        lifGetItem img file
          (m * ((img.channels : Int) * img.nz * img.nt) + t * ((img.channels : Int) * img.nz) +
            c * (img.nz : Int) + z) := by
  have hitem := item_le_total img.channels img.nz img.nt (img.dims.getD 3 0) z t c m hz ht hc hm
  have htot : ((img.channels : Int) * img.nz * img.nt * img.dims.getD 3 0 : Int) - 1 <
      (img.channels : Int) * img.nz * img.nt * img.dims.getD 3 0 := by omega
  simp only [getFrame]
  rw [if_neg (by omega), if_neg (by omega), if_neg (by omega), if_neg (by omega),
    if_neg (by linarith)]

/-- C9: the coordinate checks of get_frame test only the upper bound of
each axis.  For any coordinates strictly below the axis sizes - with no
requirement that they are nonnegative, so in particular for z = -1 with
nz at least 1 - get_frame raises no bounds error and goes on to hand
the plane index m*(C*nz*nt) + t*(C*nz) + c*nz + z, computed from the
negative value, to the selected accessor. -/
theorem get_frame_upper_bound_only (img : LifImage) (file : List Nat) (z t c m : Int) (b : Bool)
    (hz : z < (img.nz : Int)) (ht : t < (img.nt : Int)) (hc : c < (img.channels : Int))
    (hm : m < (img.dims.getD 3 0 : Int)) (_hneg : z < 0) :
    getFrame img file z t c m b =
      if b then
        lifGetItemNp img file
          (m * ((img.channels : Int) * img.nz * img.nt) + t * ((img.channels : Int) * img.nz) +
            c * (img.nz : Int) + z)
      else
        lifGetItem img file
          (m * ((img.channels : Int) * img.nz * img.nt) + t * ((img.channels : Int) * img.nz) +
            c * (img.nz : Int) + z) :=
  getFrame_inbounds_eq img file z t c m b hz ht hc hm

/-- Witness for C9: at z = -1 on a one-plane image, get_frame passes
its checks, calls the accessor with the negative index -1, and even
returns a plane (read from before the block) without raising. -/
theorem get_frame_upper_bound_only_witness :
    getFrame c9img c9file (-1) 0 0 0 false = lifGetItem c9img c9file (-1) ∧
    lifGetItem c9img c9file (-1) = .ok [8] := by
  have h := get_frame_upper_bound_only c9img c9file (-1) 0 0 0 false
    (by decide) (by decide) (by decide) (by decide) (by decide)
  constructor
  · simpa using h
  · decide

/-- In-range evaluation of the legacy PIL plane accessor: when the item
index is in range and either the block is the zero-length sentinel or
the block length and the file are large enough for the derived
per-plane byte length, the accessor succeeds with a plane of exactly
dims[4] * dims[5] elements. -/
theorem lifGetItem_ok_length (img : LifImage) (file : List Nat) (n : Int)
    (hn0 : 0 ≤ n) (hn : n < (seekDistance img : Int))
    (hfile : img.offsets.2 ≠ 0 →
      img.dims.getD 4 0 * img.dims.getD 5 0 ≤ img.offsets.2 / seekDistance img ∧
      img.offsets.1 + (img.offsets.2 / seekDistance img) * seekDistance img ≤ file.length) :
    ∃ buf, lifGetItem img file n = .ok buf ∧
      buf.length = img.dims.getD 4 0 * img.dims.getD 5 0 := by
  by_cases h0 : img.offsets.2 = 0
  · exact ⟨_, lifGetItem_zero_eval img file n h0 hn0 hn, by simp⟩
  · obtain ⟨hil, hlen⟩ := hfile h0
    have hsd1 : 1 ≤ seekDistance img := by omega
    have hkn : ((n.toNat : Int)) = n := Int.toNat_of_nonneg hn0
    have hklt : n.toNat < seekDistance img := by omega
    have hpos : (img.offsets.1 : Int) + ((img.offsets.2 / seekDistance img : Nat) : Int) * n =
        ((img.offsets.1 + (img.offsets.2 / seekDistance img) * n.toNat : Nat) : Int) := by
      push_cast [hkn]
      ring
    have hposneg : ¬((img.offsets.1 : Int) + ((img.offsets.2 / seekDistance img : Nat) : Int) * n < 0) := by
      rw [hpos]
      exact (Int.natCast_nonneg _).not_lt
    have htn : ((img.offsets.1 : Int) + ((img.offsets.2 / seekDistance img : Nat) : Int) * n).toNat =
        img.offsets.1 + (img.offsets.2 / seekDistance img) * n.toNat := by
      rw [hpos]
      exact Int.toNat_natCast _
    have hmul : (img.offsets.2 / seekDistance img) * n.toNat + (img.offsets.2 / seekDistance img) =
        (img.offsets.2 / seekDistance img) * (n.toNat + 1) := by ring
    have hmul2 : (img.offsets.2 / seekDistance img) * (n.toNat + 1) ≤
        (img.offsets.2 / seekDistance img) * seekDistance img :=
      Nat.mul_le_mul_left _ (by omega)
    have hreach : img.offsets.1 + (img.offsets.2 / seekDistance img) * n.toNat +
        (img.offsets.2 / seekDistance img) ≤ file.length := by omega
    have hdata : (hread file ((img.offsets.1 : Int) +
        ((img.offsets.2 / seekDistance img : Nat) : Int) * n).toNat
        (img.offsets.2 / seekDistance img)).length = img.offsets.2 / seekDistance img := by
      rw [htn, hread_length]
      omega
    rw [lifGetItem]
    rw [if_neg (by omega), if_neg h0, if_neg (by omega), if_neg hposneg, frombytesL]
    rw [if_neg (by rw [hdata]; omega)]
    refine ⟨_, rfl, ?_⟩
    rw [List.length_take, hdata]
    omega

/-- C2: get_frame checks each coordinate against the corresponding
dimension size and fails with the error naming the offending axis (Z,
T, channel, tile - ValueError in the source, the RangeError of the
spec) the moment any coordinate is at or beyond its axis size; for
every coordinate within bounds (and a block/file actually holding the
plane data, or the zero-length sentinel) it returns a plane of exactly
dims[4] * dims[5] elements. -/
theorem get_frame_bounds_and_plane_size (img : LifImage) (file : List Nat) (z t c m : Int) :
    (z ≥ (img.nz : Int) → getFrame img file z t c m false = .error "Requested Z frame does not exist.") ∧
    (z < (img.nz : Int) → t ≥ (img.nt : Int) →
      getFrame img file z t c m false = .error "Requested T frame does not exist.") ∧
    (z < (img.nz : Int) → t < (img.nt : Int) → c ≥ (img.channels : Int) →
      getFrame img file z t c m false = .error "Requested channel does not exist.") ∧
    (z < (img.nz : Int) → t < (img.nt : Int) → c < (img.channels : Int) →
      m ≥ (img.dims.getD 3 0 : Int) →
      getFrame img file z t c m false = .error "Requested tile does not exist.") ∧
    (0 ≤ z → z < (img.nz : Int) → 0 ≤ t → t < (img.nt : Int) → 0 ≤ c → c < (img.channels : Int) →
      0 ≤ m → m < (img.dims.getD 3 0 : Int) →
      (img.offsets.2 ≠ 0 →
        img.dims.getD 4 0 * img.dims.getD 5 0 ≤ img.offsets.2 / seekDistance img ∧
        img.offsets.1 + (img.offsets.2 / seekDistance img) * seekDistance img ≤ file.length) →
      ∃ buf, getFrame img file z t c m false = .ok buf ∧
        buf.length = img.dims.getD 4 0 * img.dims.getD 5 0) := by
  refine ⟨?_, ?_, ?_, ?_, ?_⟩
  · intro hz
    simp only [getFrame]
    rw [if_pos hz]
  · intro hz ht
    simp only [getFrame]
    rw [if_neg (by omega), if_pos ht]
  · intro hz ht hc
    simp only [getFrame]
    rw [if_neg (by omega), if_neg (by omega), if_pos hc]
  · intro hz ht hc hm
    simp only [getFrame]
    rw [if_neg (by omega), if_neg (by omega), if_neg (by omega), if_pos hm]
  · intro hz0 hz ht0 ht hc0 hc hm0 hm hfile
    rw [getFrame_inbounds_eq img file z t c m false hz ht hc hm, if_neg (by simp)]
    have hcast : ((seekDistance img : Nat) : Int) =
        (img.channels : Int) * img.nz * img.nt * img.dims.getD 3 0 := by
      simp only [seekDistance, LifImage.nz, LifImage.nt]
      push_cast
      ring
    have hitem := item_le_total img.channels img.nz img.nt (img.dims.getD 3 0) z t c m hz ht hc hm
    have hn0 : 0 ≤ m * ((img.channels : Int) * img.nz * img.nt) +
        t * ((img.channels : Int) * img.nz) + c * (img.nz : Int) + z := by
      have h1 : (0 : Int) ≤ m * ((img.channels : Int) * img.nz * img.nt) :=
        mul_nonneg hm0 (by positivity)
      have h2 : (0 : Int) ≤ t * ((img.channels : Int) * img.nz) :=
        mul_nonneg ht0 (by positivity)
      have h3 : (0 : Int) ≤ c * (img.nz : Int) := mul_nonneg hc0 (by positivity)
      omega
    have hn : m * ((img.channels : Int) * img.nz * img.nt) +
        t * ((img.channels : Int) * img.nz) + c * (img.nz : Int) + z <
        (seekDistance img : Int) := by
      rw [hcast]
      omega
    exact lifGetItem_ok_length img file _ hn0 hn hfile

/-- Witness for C2 on a concrete two-plane image: the in-bounds read
returns four elements, and the out-of-bounds Z coordinate fails with
the Z error. -/
theorem get_frame_bounds_and_plane_size_witness :
    (∃ buf, getFrame w2img w2file 1 0 0 0 false = .ok buf ∧ buf.length = 4) ∧
    getFrame w2img w2file 2 0 0 0 false = .error "Requested Z frame does not exist." := by
  have H := get_frame_bounds_and_plane_size w2img w2file 1 0 0 0
  have H2 := get_frame_bounds_and_plane_size w2img w2file 2 0 0 0
  constructor
  · exact H.2.2.2.2 (by decide) (by decide) (by decide) (by decide) (by decide) (by decide)
      (by decide) (by decide) (fun _ => by decide)
  · exact H2.1 (by decide)

/-- C10: every numpy pixel read of an image interprets elements using
only the first channel bit resolution.  The element byte width stored
at construction is floor(ch_resolutions[0] / 8); get_frame_np reads
elements of exactly that width for every coordinate (in particular
independently of the channel coordinate c), and changing the declared
resolutions of all other channels neither changes construction (beyond
the stored list itself) nor any read result. -/
theorem np_reads_use_first_channel_resolution (info : DataDict) (offs : Nat × Nat)
    (img : LifImage) (r : Nat) (rest : List Nat)
    (hres : info.ch_resolutions = r :: rest) (h : mkLifImage info offs = some img) :
    img.itemsize = r / 8 ∧
    (∀ file z t c m, getFrameNp img file z t c m =
      (let im := fromfile file
          (m * img.stride.getD 3 0 + t * img.stride.getD 2 0 + z * img.stride.getD 1 0 +
            c * img.stride.getD 0 0) (r / 8) (img.dims.getD 4 0 * img.dims.getD 5 0)
       if im.length = img.dims.getD 4 0 * img.dims.getD 5 0 then .ok im
       else .error "cannot reshape array")) ∧
    (∀ rest2, mkLifImage
        ⟨info.dims, info.path, info.name, info.channels, info.ch_offsets, r :: rest2,
         info.scale, info.stride, info.tilePosX, info.tilePosY⟩ offs =
      some ⟨img.dims, img.offsets, img.channels, img.stride, r :: rest2, img.itemsize⟩) ∧
    (∀ rest2 file z t c m,
      getFrameNp ⟨img.dims, img.offsets, img.channels, img.stride, r :: rest2, img.itemsize⟩
        file z t c m = getFrameNp img file z t c m) := by
  simp only [mkLifImage, hres, List.get?] at h
  cases hnp : npUdtype (r / 8) with
  | none => rw [hnp] at h; cases h
  | some b =>
    rw [hnp] at h
    cases h
    have hb : b = r / 8 := by
      simp only [npUdtype] at hnp
      by_cases hc : r / 8 = 1 ∨ r / 8 = 2 ∨ r / 8 = 4 ∨ r / 8 = 8
      · rw [if_pos hc] at hnp
        cases hnp
        rfl
      · rw [if_neg hc] at hnp
        cases hnp
    subst hb
    refine ⟨rfl, ?_, ?_, ?_⟩
    · intro file z t c m
      simp only [getFrameNp]
    · intro rest2
      simp only [mkLifImage, List.get?, hnp]
    · intro rest2 file z t c m
      simp only [getFrameNp]

/-- Witness for C10: the two-channel image with resolutions 16 and 8
reads 2-byte elements, and replacing the second resolution by 99 does
not change the read. -/
theorem np_reads_use_first_channel_resolution_witness :
    img16.itemsize = 16 / 8 ∧
    getFrameNp ⟨img16.dims, img16.offsets, img16.channels, img16.stride, [16, 99], img16.itemsize⟩
      [1, 2, 3, 4] 0 0 1 0 = getFrameNp img16 [1, 2, 3, 4] 0 0 1 0 := by
  have H := np_reads_use_first_channel_resolution c6winfo (1, 2) img16 16 [8] rfl (by decide)
  exact ⟨H.1, H.2.2.2 [99] [1, 2, 3, 4] 0 0 1 0⟩

/-- C8: for every leaf image whose descriptor builds successfully, the
derived scale tuple is exactly [channel scale 1, depth scale =
depth count / (depth length in micrometers), time scale = time count /
time length (no unit conversion), tile scale = the constant 1, height
scale = (height count - 1) / (height length in micrometers), width
scale = (width count - 1) / (width length in micrometers)], where the
counts and lengths are the NumberOfElements and Length attributes of
the DimID 3, 4, 2, 1 dimension descriptors (with the absent-axis
defaults of axisInfo). -/
theorem buildImage_scale_formulas (item : Elem) (path : String) (d : DataDict)
    (NZ SZ : Nat) (LZ : Rat) (hz : axisInfo item 3 = .ok (NZ, SZ, LZ))
    (NT ST : Nat) (LT : Rat) (ht : axisInfo item 4 = .ok (NT, ST, LT))
    (NM SM : Nat) (LM : Rat) (hm : axisInfo item 10 = .ok (NM, SM, LM))
    (NY SY : Nat) (LY : Rat) (hy : axisInfo item 2 = .ok (NY, SY, LY))
    (NX SX : Nat) (LX : Rat) (hx : axisInfo item 1 = .ok (NX, SX, LX))
    (hb : buildImage item path = .ok d) :
    d.scale = [1, (NZ : Rat) / (LZ * 10 ^ 6), (NT : Rat) / LT, 1,
               ((NY : Rat) - 1) / (LY * 10 ^ 6), ((NX : Rat) - 1) / (LX * 10 ^ 6)] := by
  simp only [buildImage] at hb
  cases hco : chAttrList item "BytesInc" with
  | error e => rw [hco] at hb; cases hb
  | ok chOffsets =>
    rw [hco] at hb
    dsimp only [bind, Except.bind] at hb
    cases hcr : chAttrList item "Resolution" with
    | error e => rw [hcr] at hb; cases hb
    | ok chResolutions =>
      rw [hcr] at hb
      dsimp only [bind, Except.bind] at hb
      cases hs0 : chOffsets.get? 1 with
      | none => rw [hs0] at hb; cases hb
      | some v =>
        rw [hs0] at hb
        dsimp only [bind, Except.bind, pure, Except.pure] at hb
        simp only [List.foldlM_cons, List.foldlM_nil, bind, Except.bind, hz, ht, hm, hy, hx,
          pure, Except.pure] at hb
        simp only [List.cons_append, List.nil_append, List.getD_cons_succ, List.getD_cons_zero] at hb
        by_cases hzd : LZ = 0 ∨ LT = 0 ∨ LY = 0 ∨ LX = 0
        · rw [if_pos hzd] at hb
          cases hb
        · rw [if_neg hzd] at hb
          cases hpx : tilePosList item "PosX" with
          | error e => rw [hpx] at hb; cases hb
          | ok posX =>
            rw [hpx] at hb
            dsimp only at hb
            cases hpy : tilePosList item "PosY" with
            | error e => rw [hpy] at hb; cases hb
            | ok posY =>
              rw [hpy] at hb
              dsimp only at hb
              cases hb
              simp only [qdiv_eq, qmul_eq, qsub_eq]
              norm_num

/-- Witness for C8 at the claim's own instance: wellElem has depth
count 10 and depth physical length 9e-6 meters, and the derived depth
scale entry is exactly 10 / 9. -/
theorem buildImage_scale_formulas_witness :
    buildImage wellElem "" = .ok wellDict ∧
    wellDict.scale.getD 1 0 = (10 : Rat) / 9 := by
  have hb : buildImage wellElem "" = .ok wellDict := by decide
  have h := buildImage_scale_formulas wellElem "" wellDict
    10 16 (mkRat 9 1000000) (by decide)
    1 0 1 (by decide)
    1 0 1 (by decide)
    2 2 (mkRat 3 1000000) (by decide)
    2 1 (mkRat 2 1000000) (by decide) hb
  refine ⟨hb, ?_⟩
  rw [h]
  simp only [List.getD_cons_succ, List.getD_cons_zero]
  rw [Rat.mkRat_eq_div]
  norm_num
